import Mathlib

/-!
Verification of the CrediSight-XAI explanation engine.

The development embeds the explanation core of the repository:
tree-ensemble margins, interventional Shapley attribution, the
preprocessing transform, the contribution formatting and sorting done by
the explain endpoint (src/api/main.py), the narrative summary generator
(src/api/service.py), and the request validation model
(src/api/models.py).  Machine floats are embedded as exact rationals.
-/

/-- Modelled from the spec: a binary decision tree over `n` named numeric
features; each internal node holds a feature index and a split threshold,
each leaf a numeric output value.  (The fitted XGBoost ensemble is a
binary artifact, not source.) -/
inductive DTree (n : ℕ) where
  | leaf (value : ℚ)
  | node (feature : Fin n) (threshold : ℚ) (left : DTree n) (right : DTree n)
deriving DecidableEq

/-- Modelled from the spec: route a vector from the root; go left when
`vector[feature] < threshold`, else right; a leaf returns its value. -/
def treeOut {n : ℕ} (x : Fin n → ℚ) : DTree n → ℚ
  | .leaf v => v
  | .node f t l r => if x f < t then treeOut x l else treeOut x r

/-- Modelled from the spec: ordered sequence of trees plus a scalar
base score. -/
structure TreeEnsemble (n : ℕ) where
  trees : List (DTree n)
  base_score : ℚ
deriving DecidableEq

/-- Modelled from the spec: raw margin = base score plus the sum of the
per-tree leaf outputs, in tree order. -/
def predictMargin {n : ℕ} (m : TreeEnsemble n) (x : Fin n → ℚ) : ℚ :=
  m.base_score + (m.trees.map (treeOut x)).sum

/-- Vector whose coordinates inside the coalition `S` come from the input
`x` and whose other coordinates come from the background sample `z`. -/
def maskVec {n : ℕ} (x z : Fin n → ℚ) (S : Finset (Fin n)) : Fin n → ℚ :=
  fun i => if i ∈ S then x i else z i

/-- Modelled from the spec: interventional coalition value — the expected
margin when exactly the features of `S` are fixed to the input and the
rest are marginalized over the background set `bg`
(`feature_perturbation="interventional"` in src/api/main.py line 53). -/
def coalitionValue {n : ℕ} (m : TreeEnsemble n) (bg : List (Fin n → ℚ))
    (x : Fin n → ℚ) (S : Finset (Fin n)) : ℚ :=
  ((bg.map fun z => predictMargin m (maskVec x z S)).sum) / bg.length

/-- Marginal change of the game `v` caused by adding feature `f` after
the features preceding it in the ordering `l`. -/
def permMarginal {n : ℕ} (v : Finset (Fin n) → ℚ) (l : List (Fin n)) (f : Fin n) : ℚ :=
  v (insert f (l.takeWhile fun g => decide (g ≠ f)).toFinset)
    - v ((l.takeWhile fun g => decide (g ≠ f)).toFinset)

/-- Modelled from the spec: the Shapley value of feature `f` under the
game `v` — the average, over all orderings of entering features into the
coalition, of the marginal change caused by fixing `f`. -/
def shapleyOf {n : ℕ} (v : Finset (Fin n) → ℚ) (f : Fin n) : ℚ :=
  (((List.finRange n).permutations).map fun l => permMarginal v l f).sum
    / (Nat.factorial n : ℚ)

/-- Modelled from the spec: per-feature attribution of one ensemble
prediction under the interventional perturbation policy. -/
def shapleyValue {n : ℕ} (m : TreeEnsemble n) (bg : List (Fin n → ℚ))
    (x : Fin n → ℚ) (f : Fin n) : ℚ :=
  shapleyOf (coalitionValue m bg x) f

/-- Modelled from the spec: the base value is the expected output under
the empty feature coalition — the average margin over the background. -/
def baseValue {n : ℕ} (m : TreeEnsemble n) (bg : List (Fin n → ℚ)) : ℚ :=
  ((bg.map fun z => predictMargin m z).sum) / bg.length

/-- From src/api/models.py `FeatureExplanation`: a single feature
contribution to the prediction. -/
structure FeatureExplanation where
  feature : String
  shap_value : ℚ
deriving DecidableEq

/-- From src/api/main.py lines 136-138: the per-feature contribution list
is built by zipping the canonical feature-name list with the SHAP value
vector, in canonical order. -/
def mkExplanations (names : List String) (values : List ℚ) : List FeatureExplanation :=
  (names.zip values).map fun p => { feature := p.1, shap_value := p.2 }

/-- Comparison key of the sort at src/api/main.py line 142:
`key=lambda x: abs(x.shap_value), reverse=True`. -/
def absGE (a b : FeatureExplanation) : Prop :=
  |b.shap_value| ≤ |a.shap_value|

instance : DecidableRel absGE :=
  fun a b => inferInstanceAs (Decidable (|b.shap_value| ≤ |a.shap_value|))

instance : IsTotal FeatureExplanation absGE :=
  ⟨fun a b => le_total (|b.shap_value|) (|a.shap_value|)⟩

instance : IsTrans FeatureExplanation absGE :=
  ⟨fun _ _ _ h1 h2 => le_trans h2 h1⟩

/-- From src/api/main.py line 142: Python `list.sort` is a stable sort,
so sorting with `reverse=True` on the key `abs(shap_value)` yields the
unique descending-by-absolute-value ordering in which elements with equal
keys keep their original relative order; a stable insertion sort by
`absGE` produces exactly that ordering. -/
def sortExplanations (l : List FeatureExplanation) : List FeatureExplanation :=
  l.insertionSort absGE

/-- From src/api/models.py `ExplanationResponse`: the full SHAP
explanation response, holding exactly a base value and the contribution
list. -/
structure ExplanationResponse where
  base_value : ℚ
  explanations : List FeatureExplanation
deriving DecidableEq

/-- Modelled from the spec: frozen fit-time statistics of the
preprocessing pipeline (the fitted sklearn `SimpleImputer(median)` +
`StandardScaler` pipeline is a serialized artifact, not source). -/
structure PreprocStats (n : ℕ) where
  median : Fin n → ℚ
  mean : Fin n → ℚ
  std : Fin n → ℚ

/-- Modelled from the spec: median imputation of missing values followed
by z-score standardization with frozen statistics. -/
def transformVec {n : ℕ} (st : PreprocStats n) (record : Fin n → Option ℚ) : Fin n → ℚ :=
  fun i => (((record i).getD (st.median i)) - st.mean i) / st.std i

/-- The fitted SHAP explainer artifact: the boosted ensemble together
with the interventional background sample set. -/
structure Explainer (n : ℕ) where
  ensemble : TreeEnsemble n
  background : List (Fin n → ℚ)

/-- From src/api/main.py lines 18-24: the global artifacts dictionary;
every slot starts as `None` and is optionally filled at startup. -/
structure CoreArtifacts (n : ℕ) where
  preprocessor : Option (PreprocStats n)
  model_xgb : Option (TreeEnsemble n)
  feature_order : List String
  explainer_xgb : Option (Explainer n)

/-- The error taxonomy: the handlers raise `HTTPException(500, detail)`
when an artifact is unset (the NotReady failure of the spec); a
SchemaMismatch constructor exists in the taxonomy but, as proved below,
is never produced by the code; `nameError` models an unhandled Python
`NameError` escaping a handler (surfaced by FastAPI as a 500 response),
which the explain endpoint raises because main.py uses
`FeatureExplanation` at line 138 without ever importing it (the import
on line 8 that would bring it in is commented out). -/
inductive ApiError where
  | notReady (detail : String)
  | schemaMismatch (detail : String)
  | nameError (detail : String)
deriving DecidableEq

instance {ε α : Type} [DecidableEq ε] [DecidableEq α] : DecidableEq (Except ε α) :=
  fun a b =>
    match a, b with
    | .ok x, .ok y =>
      if h : x = y then isTrue (by rw [h]) else isFalse (fun hc => h (Except.ok.inj hc))
    | .error e, .error f =>
      if h : e = f then isTrue (by rw [h]) else isFalse (fun hc => h (Except.error.inj hc))
    | .ok _, .error _ => isFalse (fun hc => Except.noConfusion hc)
    | .error _, .ok _ => isFalse (fun hc => Except.noConfusion hc)

/-- From src/api/main.py lines 64-76 (`_preprocess_data`): fail when the
preprocessor artifact is unset, otherwise apply the fitted transform. -/
def preprocess_data {n : ℕ} (pre : Option (PreprocStats n)) (record : Fin n → Option ℚ) :
    Except ApiError (Fin n → ℚ) :=
  match pre with
  | none => .error (.notReady "Preprocessor not loaded.")
  | some st => .ok (transformVec st record)

/-- From src/api/main.py lines 78-92 (`_get_prediction`): fail when the
model artifact is unset, otherwise preprocess and score.  The handler
then applies the logistic transform to obtain `prob_default`; the
logistic map is total and strictly monotone, so the raw margin stands in
for the probability payload here (no claim depends on its value). -/
def get_prediction {n : ℕ} (model : Option (TreeEnsemble n)) (pre : Option (PreprocStats n))
    (record : Fin n → Option ℚ) : Except ApiError ℚ :=
  match model with
  | none => .error (.notReady "Model not loaded.")
  | some m =>
    match preprocess_data pre record with
    | .error e => .error e
    | .ok x => .ok (predictMargin m x)

/-- From src/api/main.py lines 112-144 (`explain_xgb`): fail when the
SHAP explainer is unset; preprocess the record; obtain the class-1 SHAP
values and base value.  The response loop at lines 137-138 then
constructs `FeatureExplanation(...)` for every zipped (name, value)
pair — but main.py never imports `FeatureExplanation` (line 7 imports
only three names and the four-name import on line 8 is commented out),
so the first loop iteration raises `NameError`.  The loop body runs
exactly when the zip of the canonical names with the SHAP value vector
is non-empty; only in that degenerate empty case does control reach the
sort at line 142 and the return at line 144. -/
def explain_xgb {n : ℕ} (arts : CoreArtifacts n) (record : Fin n → Option ℚ) :
    Except ApiError ExplanationResponse :=
  match arts.explainer_xgb with
  | none => .error (.notReady "SHAP Explainer not loaded.")
  | some ex =>
    match preprocess_data arts.preprocessor record with
    | .error e => .error e
    | .ok x =>
      let shap_values := (List.finRange n).map (shapleyValue ex.ensemble ex.background x)
      if (arts.feature_order.zip shap_values).isEmpty then
        .ok { base_value := baseValue ex.ensemble ex.background,
              explanations := sortExplanations (mkExplanations arts.feature_order shap_values) }
      else
        .error (.nameError "FeatureExplanation is not defined")

/-- From src/api/main.py lines 125-144 as intended by the line-8
commented-out import (the shipped code instead raises `NameError` at
line 138 before this assembly completes, see `explain_xgb`): the explainer
base value together with the contribution list obtained by zipping the
canonical feature names with the SHAP values of the preprocessed
vector, sorted by descending absolute SHAP value. -/
def intended_explain_response {n : ℕ} (ex : Explainer n) (feature_order : List String)
    (st : PreprocStats n) (record : Fin n → Option ℚ) : ExplanationResponse :=
  let x := transformVec st record
  let shap_values := (List.finRange n).map (shapleyValue ex.ensemble ex.background x)
  { base_value := baseValue ex.ensemble ex.background,
    explanations := sortExplanations (mkExplanations feature_order shap_values) }

/-- Semantics of Python `sep.join(names)`. -/
def joinSep (sep : String) : List String → String
  | [] => ""
  | [a] => a
  | a :: rest => a ++ sep ++ joinSep sep rest

/-- From src/api/service.py lines 128-133 and 153-158 (the identical
formatting block of both branches of `_generate_summary`): one name is
rendered as itself, two names as `A and B`, otherwise a comma-separated
list with `, and ` before the final name. -/
def joinNames (driver_names : List String) : String :=
  if driver_names.length = 1 then driver_names.headD ""
  else if driver_names.length = 2 then joinSep " and " driver_names
  else joinSep ", " driver_names.dropLast ++ ", and " ++ driver_names.getLastD ""

/-- Semantics of Python `min(iterable, key=lambda x: x.shap_value,
default=None)`: `none` on an empty list, otherwise the first element with
the minimal key. -/
def minByShap : List FeatureExplanation → Option FeatureExplanation
  | [] => none
  | x :: xs => some (xs.foldl (fun cur y => if y.shap_value < cur.shap_value then y else cur) x)

/-- Semantics of Python `max(iterable, key=lambda x: x.shap_value,
default=None)`: `none` on an empty list, otherwise the first element with
the maximal key. -/
def maxByShap : List FeatureExplanation → Option FeatureExplanation
  | [] => none
  | x :: xs => some (xs.foldl (fun cur y => if cur.shap_value < y.shap_value then y else cur) x)

/-- From src/api/service.py line 113: the final prediction in log-odds is
the base value plus the sum of all contributions. -/
def final_log_odds (base_value : ℚ) (explanations : List FeatureExplanation) : ℚ :=
  base_value + (explanations.map (fun ex => ex.shap_value)).sum

/-- From src/api/service.py line 116: the profile is high-risk when the
final log-odds exceed the base value. -/
def is_high_risk (base_value : ℚ) (explanations : List FeatureExplanation) : Bool :=
  decide (final_log_odds base_value explanations > base_value)

/-- From src/api/service.py lines 107-165 (`_generate_summary`):
translate the ranked SHAP contributions into the narrative string. -/
def generate_summary (base_value : ℚ) (explanations : List FeatureExplanation) : String :=
  if is_high_risk base_value explanations then
    let drivers := (explanations.filter fun ex => decide (ex.shap_value > 0)).take 3
    let mitigator := minByShap (explanations.filter fun ex => decide (ex.shap_value < 0))
    if drivers.isEmpty then
      "The prediction is slightly above average, but no single strong risk factor was identified."
    else
      let drivers_str := joinNames (drivers.map fun d => d.feature)
      let summary := "This is a high-risk profile, primarily driven by: " ++ drivers_str ++ "."
      match mitigator with
      | some m => summary ++ " While factors like " ++ m.feature
          ++ " were a positive, it was not enough to offset the primary risk factors."
      | none => summary
  else
    let drivers := (explanations.filter fun ex => decide (ex.shap_value < 0)).take 3
    let risk_factor := maxByShap (explanations.filter fun ex => decide (ex.shap_value > 0))
    if drivers.isEmpty then
      "The prediction is in line with the average; no significant factors were identified."
    else
      let drivers_str := joinNames (drivers.map fun d => d.feature)
      let summary := "This is a low-risk profile, primarily due to positive factors like: " ++ drivers_str ++ "."
      match risk_factor with
      | some r => summary ++ " A minor risk was noted (" ++ r.feature
          ++ "), but it was offset by the strong positive factors."
      | none => summary

/-- A raw JSON field value of a request body: either `null` or a
number. -/
inductive FieldVal where
  | null
  | num (q : ℚ)
deriving DecidableEq

/-- From src/api/models.py `CreditAppFeatures`: the 23 declared input
feature fields, every one `Optional[float] = None`. -/
def featureFieldNames : List String :=
  ["ExternalRiskEstimate", "MSinceOldestTradeOpen", "MSinceMostRecentTradeOpen",
   "AverageMInFile", "NumSatisfactoryTrades", "NumTrades60Ever2DerogPubRec",
   "NumTrades90Ever2DerogPubRec", "PercentTradesNeverDelq", "MSinceMostRecentDelq",
   "MaxDelq2PublicRecLast12M", "MaxDelqEver", "NumTotalTrades",
   "NumTradesOpeninLast12M", "PercentInstallTrades", "MSinceMostRecentInqexcl7days",
   "NumInqLast6M", "NumInqLast6Mexcl7days", "NetFractionRevolvingBurden",
   "NetFractionInstallBurden", "NumRevolvingTradesWBalance", "NumInstallTradesWBalance",
   "NumBank2NatlTradesWHighUtilization", "PercentTradesWBalance"]

/-- Pydantic semantics of an `Optional[float] = None` field: an absent
key takes the default `None`, an explicit `null` parses to `None`, a
number parses to itself. -/
def parseField : Option FieldVal → Option ℚ
  | none => none
  | some .null => none
  | some (.num q) => some q

/-- From src/api/models.py `CreditAppFeatures` applied to a raw request
body: every declared field is filled by `parseField`. -/
def featuresOfRaw (raw : List (String × FieldVal)) : List (String × Option ℚ) :=
  featureFieldNames.map fun nm => (nm, parseField (raw.lookup nm))

/-- Request-body validation as performed by pydantic for
`CreditAppFeatures`: since every field is `Optional[float] = None`,
validation of any record made of null-or-number fields succeeds. -/
def validateFeatures (raw : List (String × FieldVal)) :
    Except ApiError (List (String × Option ℚ)) :=
  .ok (featuresOfRaw raw)

/-- From src/api/main.py line 73: `pd.DataFrame([data_dict],
columns=feature_order)` — the record vector is assembled by looking each
canonical feature name up in the validated field dictionary; a name with
no entry yields a missing value. -/
def recordFromFeatures {n : ℕ} (feature_order : List String)
    (fs : List (String × Option ℚ)) : Fin n → Option ℚ :=
  fun i =>
    match feature_order.get? i.val with
    | none => none
    | some nm => (fs.lookup nm).join

/-- From src/api/main.py lines 106-109 (`predict_xgb`): validate the raw
body into `CreditAppFeatures`, then run `_get_prediction` against the
XGBoost model artifact. -/
def predict_xgb_route {n : ℕ} (arts : CoreArtifacts n) (raw : List (String × FieldVal)) :
    Except ApiError ℚ :=
  match validateFeatures raw with
  | .error e => .error e
  | .ok fs => get_prediction arts.model_xgb arts.preprocessor
      (recordFromFeatures arts.feature_order fs)

/-- A serialized JSON value. -/
inductive JsonVal where
  | num (q : ℚ)
  | str (s : String)
  | arr (l : List JsonVal)
  | obj (l : List (String × JsonVal))

/-- Serialization of one `FeatureExplanation` per src/api/models.py. -/
def serializeExplanation (e : FeatureExplanation) : JsonVal :=
  .obj [("feature", .str e.feature), ("shap_value", .num e.shap_value)]

/-- Serialization of `ExplanationResponse` per src/api/models.py: the
response body carries exactly the declared fields, `base_value` and
`explanations`. -/
def serializeResponse (r : ExplanationResponse) : List (String × JsonVal) :=
  [("base_value", .num r.base_value),
   ("explanations", .arr (r.explanations.map serializeExplanation))]

/-- Concrete single-split tree: split on feature 0 at threshold 0, left
leaf -1, right leaf 1. -/
def exTree : DTree 2 := .node 0 0 (.leaf (-1)) (.leaf 1)

def exEnsemble : TreeEnsemble 2 := { trees := [exTree], base_score := 0 }

def exBackground : List (Fin 2 → ℚ) := [fun _ => -1, fun _ => 1]

def exExplainer : Explainer 2 := { ensemble := exEnsemble, background := exBackground }

def exStats : PreprocStats 2 := { median := fun _ => 0, mean := fun _ => 0, std := fun _ => 1 }

def exArts : CoreArtifacts 2 :=
  { preprocessor := some exStats, model_xgb := some exEnsemble,
    feature_order := ["A", "B"], explainer_xgb := some exExplainer }

def exRecord : Fin 2 → Option ℚ := fun i => if i = 0 then some 1 else none

/-- The response the explain endpoint would assemble for `exArts` and
`exRecord` under the intended import (hand-computed): base value 0,
contribution 1 for feature A, contribution 0 for feature B. -/
def exResp : ExplanationResponse :=
  { base_value := 0,
    explanations := [{ feature := "A", shap_value := 1 }, { feature := "B", shap_value := 0 }] }

/-- Degenerate zero-feature artifacts: the one configuration in which
the shipped explain endpoint completes, because the response loop body
at main.py lines 137-138 never executes and the missing
`FeatureExplanation` import is never touched. -/
def e0Stats : PreprocStats 0 := { median := Fin.elim0, mean := Fin.elim0, std := Fin.elim0 }

def e0Ensemble : TreeEnsemble 0 := { trees := [], base_score := 0 }

def e0Arts : CoreArtifacts 0 :=
  { preprocessor := some e0Stats, model_xgb := some e0Ensemble,
    feature_order := [],
    explainer_xgb := some { ensemble := e0Ensemble, background := [Fin.elim0] } }

def e0Record : Fin 0 → Option ℚ := Fin.elim0

/-- The response of the shipped endpoint on the degenerate zero-feature
artifacts: base value 0 and an empty contribution list. -/
def e0Resp : ExplanationResponse := { base_value := 0, explanations := [] }

/-- Artifacts with the preprocessor slot unset, for the NotReady cases. -/
def c9Arts : CoreArtifacts 2 :=
  { preprocessor := none, model_xgb := some exEnsemble,
    feature_order := ["A", "B"], explainer_xgb := some exExplainer }

def cexStats : PreprocStats 1 := { median := fun _ => 0, mean := fun _ => 0, std := fun _ => 1 }

/-- Fully loaded single-feature artifacts used to exercise the predict
route on a record that is missing every feature key. -/
def cexArts : CoreArtifacts 1 :=
  { preprocessor := some cexStats, model_xgb := some { trees := [.leaf 0], base_score := 0 },
    feature_order := ["ExternalRiskEstimate"], explainer_xgb := none }

/-- Order produced by a stable descending sort: a pair is either strictly
descending in absolute value, or tied with the positional index
increasing. -/
def stableDescAt (idx : FeatureExplanation → ℕ) (a b : FeatureExplanation) : Prop :=
  |b.shap_value| < |a.shap_value| ∨
    (|a.shap_value| = |b.shap_value| ∧ idx a < idx b)

instance (idx : FeatureExplanation → ℕ) : DecidableRel (stableDescAt idx) :=
  fun a b => inferInstanceAs
    (Decidable (|b.shap_value| < |a.shap_value| ∨
      (|a.shap_value| = |b.shap_value| ∧ idx a < idx b)))

/-- Concrete contribution list with a strictly positive total, one
positive and one negative entry. -/
def c4Exps : List FeatureExplanation :=
  [{ feature := "A", shap_value := 2 }, { feature := "B", shap_value := -1 }]

theorem list_sum_map_add {α : Type} (L : List α) (p q : α → ℚ) :
    (L.map fun a => p a + q a).sum = (L.map p).sum + (L.map q).sum := by
  induction L with
  | nil => simp
  | cons a t ih => simp [ih]; ring

theorem list_sum_map_div {α : Type} (L : List α) (g : α → ℚ) (c : ℚ) :
    (L.map fun a => g a / c).sum = (L.map g).sum / c := by
  induction L with
  | nil => simp
  | cons a t ih => simp [ih, add_div]

theorem list_sum_map_const {β : Type} (B : List β) (c : ℚ) :
    (B.map fun _ => c).sum = (B.length : ℚ) * c := by
  induction B with
  | nil => simp
  | cons b t ih => simp [ih]; ring

theorem list_sum_comm {α β : Type} (A : List α) (B : List β) (h : α → β → ℚ) :
    (A.map fun a => (B.map fun b => h a b).sum).sum
      = (B.map fun b => (A.map fun a => h a b).sum).sum := by
  induction A with
  | nil =>
    simp
  | cons a t ih =>
    simp only [List.map_cons, List.sum_cons, ih]
    rw [← list_sum_map_add]

/-- Telescoping of the permutation marginals: summed along any
duplicate-free ordering `l`, the marginal contributions collapse to the
difference between the full-coalition value and the empty value. -/
theorem permMarginal_telescope {n : ℕ} :
    ∀ (l : List (Fin n)), l.Nodup → ∀ (v : Finset (Fin n) → ℚ),
      (l.map fun f => permMarginal v l f).sum = v l.toFinset - v ∅ := by
  intro l
  induction l with
  | nil => intro _ v; simp
  | cons a t ih =>
    intro hnd v
    rw [List.nodup_cons] at hnd
    obtain ⟨ha, hndt⟩ := hnd
    have hhead : permMarginal v (a :: t) a = v (insert a ∅) - v ∅ := by
      simp [permMarginal, List.takeWhile]
    have htail : (t.map fun f => permMarginal v (a :: t) f)
        = t.map fun f => permMarginal (fun S => v (insert a S)) t f := by
      apply List.map_congr_left
      intro f hf
      have hfa : a ≠ f := fun hcon => ha (hcon ▸ hf)
      have hdec : (decide (a ≠ f)) = true := by simp [hfa]
      simp only [permMarginal, List.takeWhile, hdec]
      simp only [List.toFinset_cons]
      rw [Finset.Insert.comm]
    rw [List.map_cons, List.sum_cons, hhead, htail, ih hndt (fun S => v (insert a S))]
    simp only [List.toFinset_cons]
    ring_nf

/-- Efficiency of the permutation-averaged Shapley value: the per-feature
attributions of the game `v` sum to the full-coalition value minus the
empty-coalition value. -/
theorem shapleyOf_sum {n : ℕ} (v : Finset (Fin n) → ℚ) :
    ((List.finRange n).map (shapleyOf v)).sum = v Finset.univ - v ∅ := by
  have hinner : ∀ l ∈ (List.finRange n).permutations,
      ((List.finRange n).map fun f => permMarginal v l f).sum = v Finset.univ - v ∅ := by
    intro l hl
    have hp : l.Perm (List.finRange n) := List.mem_permutations.mp hl
    have hnd : l.Nodup := (hp.nodup_iff).mpr (List.nodup_finRange n)
    have hmapperm : (l.map fun f => permMarginal v l f).Perm
        ((List.finRange n).map fun f => permMarginal v l f) := hp.map _
    rw [← hmapperm.sum_eq, permMarginal_telescope l hnd v,
      List.toFinset_eq_of_perm _ _ hp, List.toFinset_finRange]
  calc ((List.finRange n).map (shapleyOf v)).sum
      = ((List.finRange n).map fun f =>
          (((List.finRange n).permutations).map fun l => permMarginal v l f).sum
            / (Nat.factorial n : ℚ)).sum := rfl
    _ = (((List.finRange n).map fun f =>
          (((List.finRange n).permutations).map fun l => permMarginal v l f).sum).sum)
            / (Nat.factorial n : ℚ) := by
        rw [list_sum_map_div]
    _ = ((((List.finRange n).permutations).map fun l =>
          ((List.finRange n).map fun f => permMarginal v l f).sum).sum)
            / (Nat.factorial n : ℚ) := by
        rw [list_sum_comm]
    _ = ((((List.finRange n).permutations).map fun _ =>
          v Finset.univ - v ∅).sum) / (Nat.factorial n : ℚ) := by
        rw [List.map_congr_left hinner]
    _ = v Finset.univ - v ∅ := by
        have hne : (Nat.factorial n : ℚ) ≠ 0 := by exact_mod_cast Nat.factorial_ne_zero n
        rw [list_sum_map_const, List.length_permutations, List.length_finRange,
          mul_comm, mul_div_assoc, div_self hne, mul_one]

theorem maskVec_univ {n : ℕ} (x z : Fin n → ℚ) : maskVec x z Finset.univ = x := by
  funext i
  simp [maskVec]

theorem maskVec_empty {n : ℕ} (x z : Fin n → ℚ) : maskVec x z ∅ = z := by
  funext i
  simp [maskVec]

/-- With a nonempty background, the full-coalition value of the
interventional game is the ensemble margin at the input itself. -/
theorem coalitionValue_univ {n : ℕ} (m : TreeEnsemble n) (bg : List (Fin n → ℚ))
    (x : Fin n → ℚ) (hbg : bg ≠ []) :
    coalitionValue m bg x Finset.univ = predictMargin m x := by
  unfold coalitionValue
  have hne : (bg.length : ℚ) ≠ 0 := Nat.cast_ne_zero.mpr (List.length_pos.mpr hbg).ne'
  rw [List.map_congr_left fun z _ => by rw [maskVec_univ x z], list_sum_map_const,
    mul_comm, mul_div_assoc, div_self hne, mul_one]

/-- The empty-coalition value of the interventional game is the base
value (average margin over the background). -/
theorem coalitionValue_empty {n : ℕ} (m : TreeEnsemble n) (bg : List (Fin n → ℚ))
    (x : Fin n → ℚ) :
    coalitionValue m bg x ∅ = baseValue m bg := by
  unfold coalitionValue baseValue
  rw [List.map_congr_left fun z _ => by rw [maskVec_empty x z]]

theorem pairwise_imp_of_mem {α : Type} {R S : α → α → Prop} :
    ∀ {l : List α}, (∀ a ∈ l, ∀ b ∈ l, R a b → S a b) → l.Pairwise R → l.Pairwise S := by
  intro l
  induction l with
  | nil => intro _ _; exact List.Pairwise.nil
  | cons x t ih =>
    intro h hp
    obtain ⟨hx, ht⟩ := List.pairwise_cons.mp hp
    refine List.pairwise_cons.mpr ⟨?_, ?_⟩
    · intro b hb
      exact h x (List.mem_cons_self x t) b (List.mem_cons_of_mem x hb) (hx b hb)
    · exact ih (fun a ha b hb => h a (List.mem_cons_of_mem x ha) b (List.mem_cons_of_mem x hb)) ht

theorem orderedInsert_stable (idx : FeatureExplanation → ℕ) (x : FeatureExplanation) :
    ∀ (l : List FeatureExplanation), l.Sorted absGE →
      l.Pairwise (stableDescAt idx) → (∀ b ∈ l, idx x < idx b) →
      (List.orderedInsert absGE x l).Pairwise (stableDescAt idx) := by
  intro l
  induction l with
  | nil => intro _ _ _; simp [List.orderedInsert]
  | cons b t ih =>
    intro hsort hP hidx
    obtain ⟨hb, hsortt⟩ := List.sorted_cons.mp hsort
    obtain ⟨hPb, hPt⟩ := List.pairwise_cons.mp hP
    rw [List.orderedInsert]
    by_cases hxb : absGE x b
    · rw [if_pos hxb]
      refine List.pairwise_cons.mpr ⟨?_, hP⟩
      intro c hc
      have hcx : |c.shap_value| ≤ |x.shap_value| := by
        rcases List.mem_cons.mp hc with hcb | hct
        · exact hcb ▸ hxb
        · exact le_trans (hb c hct) hxb
      rcases lt_or_eq_of_le hcx with hlt | heq
      · exact Or.inl hlt
      · exact Or.inr ⟨heq.symm, hidx c hc⟩
    · rw [if_neg hxb]
      have hbx : |x.shap_value| < |b.shap_value| := lt_of_not_le hxb
      refine List.pairwise_cons.mpr ⟨?_, ?_⟩
      · intro c hc
        rcases (List.mem_orderedInsert absGE).mp hc with hcx | hct
        · exact Or.inl (hcx ▸ hbx)
        · exact hPb c hct
      · exact ih hsortt hPt fun c hc => hidx c (List.mem_cons_of_mem b hc)

/-- A stable descending sort of a list whose positional indices strictly
increase is, pairwise, either strictly descending in absolute value or
tied with the original (canonical) order preserved. -/
theorem sortExplanations_stable (idx : FeatureExplanation → ℕ) :
    ∀ (l : List FeatureExplanation), l.Pairwise (fun a b => idx a < idx b) →
      (sortExplanations l).Pairwise (stableDescAt idx) := by
  intro l
  induction l with
  | nil => intro _; simp [sortExplanations, List.insertionSort]
  | cons x t ih =>
    intro hl
    obtain ⟨hx, ht⟩ := List.pairwise_cons.mp hl
    show (List.orderedInsert absGE x (List.insertionSort absGE t)).Pairwise (stableDescAt idx)
    apply orderedInsert_stable
    · exact List.sorted_insertionSort absGE t
    · exact ih ht
    · intro b hb
      exact hx b ((List.mem_insertionSort absGE).mp hb)

theorem mem_mkExplanations_feature {names : List String} {values : List ℚ}
    {e : FeatureExplanation} (he : e ∈ mkExplanations names values) :
    e.feature ∈ names := by
  obtain ⟨⟨nm, v⟩, hmem, heq⟩ := List.mem_map.mp he
  have := (List.of_mem_zip hmem).1
  simpa [← heq] using this

/-- The contribution list is built in canonical feature order: positional
indices in the canonical name list strictly increase along it. -/
theorem mkExplanations_pairwise_indexOf :
    ∀ (names : List String), names.Nodup → ∀ (values : List ℚ),
      (mkExplanations names values).Pairwise
        (fun a b => names.indexOf a.feature < names.indexOf b.feature) := by
  intro names
  induction names with
  | nil => intro _ values; simp [mkExplanations]
  | cons nm nt ih =>
    intro hnd values
    rw [List.nodup_cons] at hnd
    obtain ⟨hnin, hndt⟩ := hnd
    cases values with
    | nil => simp [mkExplanations]
    | cons v vt =>
      rw [mkExplanations, List.zip_cons_cons, List.map_cons]
      refine List.pairwise_cons.mpr ⟨?_, ?_⟩
      · intro b hb
        have hbf : b.feature ∈ nt := mem_mkExplanations_feature hb
        have hbne : b.feature ≠ nm := fun h => hnin (h ▸ hbf)
        show (nm :: nt).indexOf (⟨nm, v⟩ : FeatureExplanation).feature
            < (nm :: nt).indexOf b.feature
        rw [show (⟨nm, v⟩ : FeatureExplanation).feature = nm from rfl,
          List.indexOf_cons_self, List.indexOf_cons_ne nt hbne.symm]
        exact Nat.succ_pos _
      · refine pairwise_imp_of_mem ?_ (ih hndt vt)
        intro a ha b hb hlt
        have haf : a.feature ∈ nt := mem_mkExplanations_feature ha
        have hbf : b.feature ∈ nt := mem_mkExplanations_feature hb
        have hane : a.feature ≠ nm := fun h => hnin (h ▸ haf)
        have hbne : b.feature ≠ nm := fun h => hnin (h ▸ hbf)
        rw [List.indexOf_cons_ne nt hane.symm, List.indexOf_cons_ne nt hbne.symm]
        exact Nat.succ_lt_succ hlt

theorem foldl_minShap_spec :
    ∀ (xs : List FeatureExplanation) (cur : FeatureExplanation),
      (xs.foldl (fun c y => if y.shap_value < c.shap_value then y else c) cur) ∈ cur :: xs ∧
      (xs.foldl (fun c y => if y.shap_value < c.shap_value then y else c) cur).shap_value
        ≤ cur.shap_value ∧
      ∀ y ∈ xs,
        (xs.foldl (fun c y => if y.shap_value < c.shap_value then y else c) cur).shap_value
          ≤ y.shap_value := by
  intro xs
  induction xs with
  | nil => intro cur; simp
  | cons x t ih =>
    intro cur
    rw [List.foldl_cons]
    by_cases hx : x.shap_value < cur.shap_value
    · rw [if_pos hx]
      obtain ⟨hmem, hle, hall⟩ := ih x
      refine ⟨?_, ?_, ?_⟩
      · rcases List.mem_cons.mp hmem with h | h
        · rw [h]; exact List.mem_cons_of_mem _ (List.mem_cons_self _ _)
        · exact List.mem_cons_of_mem _ (List.mem_cons_of_mem _ h)
      · exact le_trans hle (le_of_lt hx)
      · intro y hy
        rcases List.mem_cons.mp hy with h | h
        · rw [h]; exact hle
        · exact hall y h
    · rw [if_neg hx]
      obtain ⟨hmem, hle, hall⟩ := ih cur
      refine ⟨?_, hle, ?_⟩
      · rcases List.mem_cons.mp hmem with h | h
        · rw [h]; exact List.mem_cons_self _ _
        · exact List.mem_cons_of_mem _ (List.mem_cons_of_mem _ h)
      · intro y hy
        rcases List.mem_cons.mp hy with h | h
        · rw [h]; exact le_trans hle (le_of_not_lt hx)
        · exact hall y h

theorem minByShap_eq_none_iff (l : List FeatureExplanation) :
    minByShap l = none ↔ l = [] := by
  cases l <;> simp [minByShap]

/-- `minByShap` returns an element of the list whose `shap_value` is
minimal (mirroring Python `min(..., key=..., default=None)`). -/
theorem minByShap_spec {l : List FeatureExplanation} {m : FeatureExplanation}
    (h : minByShap l = some m) :
    m ∈ l ∧ ∀ y ∈ l, m.shap_value ≤ y.shap_value := by
  cases l with
  | nil => simp [minByShap] at h
  | cons x xs =>
    rw [minByShap, Option.some.injEq] at h
    obtain ⟨hmem, hle, hall⟩ := foldl_minShap_spec xs x
    rw [h] at hmem hle hall
    refine ⟨hmem, ?_⟩
    intro y hy
    rcases List.mem_cons.mp hy with hyx | hyt
    · rw [hyx]; exact hle
    · exact hall y hyt

theorem str_append_ne_empty (s t : String) (h : s ≠ "") : s ++ t ≠ "" := by
  intro hc
  apply h
  have hl := congrArg String.length hc
  rw [String.length_append] at hl
  have hz : ("" : String).length = 0 := rfl
  rw [hz] at hl
  have hs : s.length = 0 := by omega
  cases s with
  | mk data =>
    cases data with
    | nil => rfl
    | cons c cs => simp [String.length] at hs

theorem is_high_risk_iff (b : ℚ) (exps : List FeatureExplanation) :
    is_high_risk b exps = true ↔ 0 < (exps.map (fun ex => ex.shap_value)).sum := by
  rw [is_high_risk, decide_eq_true_eq, final_log_odds, gt_iff_lt, lt_add_iff_pos_right]

theorem generate_summary_high_empty (b : ℚ) (exps : List FeatureExplanation)
    (hh : is_high_risk b exps = true)
    (hp : exps.filter (fun ex => decide (ex.shap_value > 0)) = []) :
    generate_summary b exps =
      "The prediction is slightly above average, but no single strong risk factor was identified." := by
  rw [generate_summary, if_pos (by rw [hh]), hp]
  simp

theorem generate_summary_high_nonempty (b : ℚ) (exps : List FeatureExplanation)
    (hh : is_high_risk b exps = true)
    (hp : exps.filter (fun ex => decide (ex.shap_value > 0)) ≠ []) :
    generate_summary b exps =
      (let core := "This is a high-risk profile, primarily driven by: "
          ++ joinNames (((exps.filter fun ex => decide (ex.shap_value > 0)).take 3).map
              fun d => d.feature) ++ "."
       match minByShap (exps.filter fun ex => decide (ex.shap_value < 0)) with
       | some m => core ++ " While factors like " ++ m.feature
           ++ " were a positive, it was not enough to offset the primary risk factors."
       | none => core) := by
  obtain ⟨c, cs, hcs⟩ := List.exists_cons_of_ne_nil hp
  rw [generate_summary, if_pos (by rw [hh])]
  have hne : ((exps.filter fun ex => decide (ex.shap_value > 0)).take 3).isEmpty = false := by
    rw [hcs]; rfl
  rw [if_neg (by rw [hne]; exact Bool.false_ne_true)]

theorem generate_summary_low_empty (b : ℚ) (exps : List FeatureExplanation)
    (hh : is_high_risk b exps = false)
    (hneg : exps.filter (fun ex => decide (ex.shap_value < 0)) = []) :
    generate_summary b exps =
      "The prediction is in line with the average; no significant factors were identified." := by
  rw [generate_summary, if_neg (by rw [hh]; exact Bool.false_ne_true), hneg]
  simp

theorem generate_summary_low_nonempty (b : ℚ) (exps : List FeatureExplanation)
    (hh : is_high_risk b exps = false)
    (hneg : exps.filter (fun ex => decide (ex.shap_value < 0)) ≠ []) :
    generate_summary b exps =
      (let core := "This is a low-risk profile, primarily due to positive factors like: "
          ++ joinNames (((exps.filter fun ex => decide (ex.shap_value < 0)).take 3).map
              fun d => d.feature) ++ "."
       match maxByShap (exps.filter fun ex => decide (ex.shap_value > 0)) with
       | some r => core ++ " A minor risk was noted (" ++ r.feature
           ++ "), but it was offset by the strong positive factors."
       | none => core) := by
  obtain ⟨c, cs, hcs⟩ := List.exists_cons_of_ne_nil hneg
  rw [generate_summary, if_neg (by rw [hh]; exact Bool.false_ne_true)]
  have hne : ((exps.filter fun ex => decide (ex.shap_value < 0)).take 3).isEmpty = false := by
    rw [hcs]; rfl
  rw [if_neg (by rw [hne]; exact Bool.false_ne_true)]

theorem lookup_map_self (g : String → Option ℚ) :
    ∀ (names : List String) (nm : String), nm ∈ names →
      (names.map fun x => (x, g x)).lookup nm = some (g nm) := by
  intro names
  induction names with
  | nil => intro nm h; simp at h
  | cons a t ih =>
    intro nm h
    rw [List.map_cons]
    by_cases hnm : nm = a
    · rw [hnm]; simp [List.lookup]
    · have hmem : nm ∈ t := by
        rcases List.mem_cons.mp h with hc | hc
        · exact absurd hc hnm
        · exact hc
      have hbeq : (nm == a) = false := by simp [hnm]
      simp only [List.lookup, hbeq]
      exact ih nm hmem

/-- Successful explanation responses exist only when the zipped
contribution list is empty (otherwise the endpoint raises the NameError
of the missing import before returning), and then have exactly the
shape assembled at src/api/main.py lines 125-144: the explainer base
value together with the sorted, zipped contribution list of the
preprocessed vector. -/
theorem explain_xgb_ok_shape {n : ℕ} (arts : CoreArtifacts n) (record : Fin n → Option ℚ)
    (resp : ExplanationResponse) (hok : explain_xgb arts record = .ok resp) :
    ∃ ex st, arts.explainer_xgb = some ex ∧ arts.preprocessor = some st ∧
      (arts.feature_order.zip ((List.finRange n).map (shapleyValue ex.ensemble
        ex.background (transformVec st record)))).isEmpty = true ∧
      resp = { base_value := baseValue ex.ensemble ex.background,
               explanations := sortExplanations (mkExplanations arts.feature_order
                 ((List.finRange n).map (shapleyValue ex.ensemble ex.background
                   (transformVec st record)))) } := by
  cases hex : arts.explainer_xgb with
  | none => rw [explain_xgb, hex] at hok; simp at hok
  | some ex =>
    cases hpre : arts.preprocessor with
    | none =>
      rw [explain_xgb, hex, hpre] at hok
      simp [preprocess_data] at hok
    | some st =>
      rw [explain_xgb, hex, hpre] at hok
      dsimp only [preprocess_data] at hok
      by_cases hz : (arts.feature_order.zip ((List.finRange n).map
          (shapleyValue ex.ensemble ex.background (transformVec st record)))).isEmpty = true
      · rw [if_pos hz] at hok
        exact ⟨ex, st, rfl, rfl, hz, (Except.ok.inj hok).symm⟩
      · rw [if_neg hz] at hok
        simp at hok

/-- The intended response (the assembly below the broken line) is exact:
its base value plus the sum of all contribution values equals the
ensemble margin of the preprocessed vector, as an exact rational
identity. -/
theorem intended_exactness {n : ℕ} (ex : Explainer n) (feature_order : List String)
    (st : PreprocStats n) (record : Fin n → Option ℚ)
    (hbg : ex.background ≠ []) (hlen : feature_order.length = n) :
    (intended_explain_response ex feature_order st record).base_value
      + ((intended_explain_response ex feature_order st record).explanations.map
          fun e => e.shap_value).sum
      = predictMargin ex.ensemble (transformVec st record) := by
  set x := transformVec st record with hx
  set values := (List.finRange n).map (shapleyValue ex.ensemble ex.background x) with hv
  have hb : (intended_explain_response ex feature_order st record).base_value
      = baseValue ex.ensemble ex.background := rfl
  have hL : (intended_explain_response ex feature_order st record).explanations
      = sortExplanations (mkExplanations feature_order values) := rfl
  have hlenv : values.length = n := by rw [hv, List.length_map, List.length_finRange]
  have hsum : ((intended_explain_response ex feature_order st record).explanations.map
      fun e => e.shap_value).sum = values.sum := by
    rw [hL]
    unfold sortExplanations
    rw [((List.perm_insertionSort absGE
      (mkExplanations feature_order values)).map fun e => e.shap_value).sum_eq]
    rw [mkExplanations, List.map_map]
    rw [show ((fun e : FeatureExplanation => e.shap_value) ∘ fun p : String × ℚ =>
        ({ feature := p.1, shap_value := p.2 } : FeatureExplanation)) = Prod.snd from rfl]
    rw [List.map_snd_zip feature_order values (by rw [hlenv, hlen])]
  have hvs : values.sum
      = predictMargin ex.ensemble x - baseValue ex.ensemble ex.background := by
    have heff := shapleyOf_sum (coalitionValue ex.ensemble ex.background x)
    rw [show values
        = (List.finRange n).map (shapleyOf (coalitionValue ex.ensemble ex.background x))
      from rfl]
    rw [heff, coalitionValue_univ ex.ensemble ex.background x hbg, coalitionValue_empty]
  rw [hb, hsum, hvs]
  ring

/-- C1 (code bug): on concrete fully loaded artifacts the explain
endpoint never returns an explanation — it fails with the NameError of
the missing `FeatureExplanation` import (main.py line 138, import
commented out at line 8) — while the response the code intends to
assemble at that very input does satisfy the claimed exactness identity
base_value + sum of contributions = margin of the preprocessed vector. -/
theorem C1_crash_and_intended_exactness :
    explain_xgb exArts exRecord
        = .error (.nameError "FeatureExplanation is not defined") ∧
    intended_explain_response exExplainer exArts.feature_order exStats exRecord = exResp ∧
    exResp.base_value + (exResp.explanations.map fun e => e.shap_value).sum
      = predictMargin exExplainer.ensemble (transformVec exStats exRecord) :=
  ⟨by with_unfolding_all decide, by with_unfolding_all decide, by with_unfolding_all decide⟩

/-- The contribution list of the intended response is sorted by
descending absolute value, ties broken by canonical feature order. -/
theorem intended_ranking_stable {n : ℕ} (ex : Explainer n) (feature_order : List String)
    (st : PreprocStats n) (record : Fin n → Option ℚ) (hnd : feature_order.Nodup) :
    (intended_explain_response ex feature_order st record).explanations.Pairwise
      (stableDescAt fun e => feature_order.indexOf e.feature) :=
  sortExplanations_stable _ _ (mkExplanations_pairwise_indexOf feature_order hnd _)

/-- C2 (code bug): the explain endpoint fails with the NameError of the
missing import before the sort at main.py line 142 can run, so no
contribution list is ever returned (nor handed to any summary
generator, which main.py never invokes); the list the code intends to
return at the concrete input is sorted by descending absolute value
with the canonical feature order as stable tie-break. -/
theorem C2_crash_and_intended_order :
    explain_xgb exArts exRecord
        = .error (.nameError "FeatureExplanation is not defined") ∧
    (intended_explain_response exExplainer exArts.feature_order
      exStats exRecord).explanations.Pairwise
        (stableDescAt fun e => exArts.feature_order.indexOf e.feature) :=
  ⟨by with_unfolding_all decide,
    intended_ranking_stable exExplainer exArts.feature_order exStats exRecord (by decide)⟩

/-- The intended response has exactly one contribution per canonical
feature name: full length, and the feature-name multiset permutes the
canonical list. -/
theorem intended_one_entry_per_feature {n : ℕ} (ex : Explainer n)
    (feature_order : List String) (st : PreprocStats n) (record : Fin n → Option ℚ)
    (hlen : feature_order.length = n) :
    (intended_explain_response ex feature_order st record).explanations.length
        = feature_order.length ∧
    ((intended_explain_response ex feature_order st record).explanations.map
        fun e => e.feature).Perm feature_order := by
  set values := (List.finRange n).map
    (shapleyValue ex.ensemble ex.background (transformVec st record)) with hv
  have hlenv : values.length = n := by rw [hv, List.length_map, List.length_finRange]
  have hexp : (intended_explain_response ex feature_order st record).explanations
      = sortExplanations (mkExplanations feature_order values) := rfl
  have hfeat : (mkExplanations feature_order values).map (fun e => e.feature)
      = feature_order := by
    rw [mkExplanations, List.map_map]
    rw [show ((fun e : FeatureExplanation => e.feature) ∘ fun p : String × ℚ =>
        ({ feature := p.1, shap_value := p.2 } : FeatureExplanation)) = Prod.fst from rfl]
    exact List.map_fst_zip feature_order values (by rw [hlenv, hlen])
  constructor
  · rw [hexp]
    unfold sortExplanations
    rw [List.length_insertionSort]
    have hc := congrArg List.length hfeat
    rw [List.length_map] at hc
    exact hc
  · rw [hexp]
    unfold sortExplanations
    have hperm := (List.perm_insertionSort absGE
      (mkExplanations feature_order values)).map fun e => e.feature
    rw [hfeat] at hperm
    exact hperm

/-- C10 (code bug): the explain endpoint fails with the NameError of
the missing import before the response list is assembled, so no
explanations list is ever returned; the list the code intends to return
at the concrete input has exactly one entry per canonical feature name
(full length, names a permutation of the canonical list). -/
theorem C10_crash_and_intended_count :
    explain_xgb exArts exRecord
        = .error (.nameError "FeatureExplanation is not defined") ∧
    (intended_explain_response exExplainer exArts.feature_order
        exStats exRecord).explanations.length = exArts.feature_order.length ∧
    ((intended_explain_response exExplainer exArts.feature_order
        exStats exRecord).explanations.map fun e => e.feature).Perm exArts.feature_order :=
  ⟨by with_unfolding_all decide,
    (intended_one_entry_per_feature exExplainer exArts.feature_order exStats exRecord rfl).1,
    (intended_one_entry_per_feature exExplainer exArts.feature_order exStats exRecord rfl).2⟩

/-- C9: when the fitted preprocessor statistics are unset, the
preprocessing call fails with the surfaced NotReady error (never a
silent default), and any prediction or explanation that uses it fails
with the same error. -/
theorem C9_preprocessor_not_ready {n : ℕ} (arts : CoreArtifacts n)
    (record : Fin n → Option ℚ) (hpre : arts.preprocessor = none) :
    preprocess_data arts.preprocessor record
        = .error (.notReady "Preprocessor not loaded.") ∧
    (∀ m : TreeEnsemble n, get_prediction (some m) arts.preprocessor record
        = .error (.notReady "Preprocessor not loaded.")) ∧
    (∀ ex : Explainer n, arts.explainer_xgb = some ex →
      explain_xgb arts record = .error (.notReady "Preprocessor not loaded.")) := by
  refine ⟨?_, ?_, ?_⟩
  · rw [hpre]
    rfl
  · intro m
    rw [get_prediction, hpre]
    rfl
  · intro ex hex
    rw [explain_xgb, hex, hpre]
    rfl

/-- Witness for C9 on artifacts whose preprocessor slot is unset. -/
theorem C9_preprocessor_not_ready_witness :
    c9Arts.preprocessor = none ∧
    (preprocess_data c9Arts.preprocessor exRecord
        = .error (.notReady "Preprocessor not loaded.") ∧
    (∀ m : TreeEnsemble 2, get_prediction (some m) c9Arts.preprocessor exRecord
        = .error (.notReady "Preprocessor not loaded.")) ∧
    (∀ ex : Explainer 2, c9Arts.explainer_xgb = some ex →
      explain_xgb c9Arts exRecord = .error (.notReady "Preprocessor not loaded."))) :=
  ⟨rfl, C9_preprocessor_not_ready c9Arts exRecord rfl⟩

/-- C7 counterexample: with fully loaded artifacts, the predict route
applied to a raw record that is missing every required feature key does
not fail at all — validation fills the missing keys with null defaults
and the route returns a prediction, contradicting the claimed
SchemaMismatch failure. -/
theorem C7_missing_key_counterexample :
    validateFeatures [] = .ok (featureFieldNames.map fun nm => (nm, none)) ∧
    predict_xgb_route cexArts [] = .ok 0 := by
  constructor
  · with_unfolding_all rfl
  · with_unfolding_all rfl

/-- C7 amended: predict fails with the NotReady error when the model
artifact is unset; a record missing a required feature key is accepted
by validation, the missing field defaulting to null (no SchemaMismatch
error is ever raised). -/
theorem C7_not_ready_and_missing_key_defaults (n : ℕ) :
    (∀ (pre : Option (PreprocStats n)) (record : Fin n → Option ℚ),
      get_prediction (none : Option (TreeEnsemble n)) pre record
        = .error (.notReady "Model not loaded.")) ∧
    (∀ raw : List (String × FieldVal), validateFeatures raw = .ok (featuresOfRaw raw)) ∧
    (∀ (raw : List (String × FieldVal)) (nm : String), nm ∈ featureFieldNames →
      raw.lookup nm = none → (featuresOfRaw raw).lookup nm = some none) := by
  refine ⟨fun pre record => rfl, fun raw => rfl, fun raw nm hmem hlook => ?_⟩
  rw [featuresOfRaw]
  rw [lookup_map_self (fun x => parseField (raw.lookup x)) featureFieldNames nm hmem]
  rw [hlook]
  rfl

/-- Witness for the amended C7: concrete artifacts, the empty raw record
and the first declared feature name. -/
theorem C7_not_ready_and_missing_key_defaults_witness :
    ("ExternalRiskEstimate" ∈ featureFieldNames ∧
      ([] : List (String × FieldVal)).lookup "ExternalRiskEstimate" = none) ∧
    (get_prediction (none : Option (TreeEnsemble 1)) (some cexStats) (fun _ => none)
        = .error (.notReady "Model not loaded.") ∧
      validateFeatures [] = .ok (featuresOfRaw []) ∧
      (featuresOfRaw []).lookup "ExternalRiskEstimate" = some none) := by
  have h := C7_not_ready_and_missing_key_defaults 1
  exact ⟨⟨by decide, rfl⟩,
    ⟨h.1 (some cexStats) (fun _ => none), h.2.1 [],
      h.2.2 [] "ExternalRiskEstimate" (by decide) rfl⟩⟩

/-- C8 counterexample: on the degenerate zero-feature artifacts — the
one configuration in which the shipped endpoint completes, since the
response loop body never runs — the explain pipeline succeeds, yet its
serialized result carries exactly the two fields `base_value` and
`explanations`: no probability field and no narrative field, so the
claim fails on a run that does succeed.  On the ordinary loaded
two-feature artifacts the pipeline cannot succeed at all: it fails with
the NameError of the missing import. -/
theorem C8_missing_fields_counterexample :
    explain_xgb e0Arts e0Record = .ok e0Resp ∧
    (serializeResponse e0Resp).map Prod.fst = ["base_value", "explanations"] ∧
    "probability" ∉ (serializeResponse e0Resp).map Prod.fst ∧
    "prob_default" ∉ (serializeResponse e0Resp).map Prod.fst ∧
    "narrative" ∉ (serializeResponse e0Resp).map Prod.fst ∧
    "summary" ∉ (serializeResponse e0Resp).map Prod.fst ∧
    explain_xgb exArts exRecord
        = .error (.nameError "FeatureExplanation is not defined") := by
  refine ⟨by with_unfolding_all decide, rfl, by decide, by decide, by decide, by decide,
    by with_unfolding_all decide⟩

/-- C8 amended: whenever the explanation pipeline succeeds, its returned
result carries exactly the base value and the ranked contribution list —
the predicted probability and the narrative string are never part of
the response (no field of the serialized response is a string at all,
and the contribution list is sorted by descending absolute value); and
with loaded artifacts and a non-empty feature list the pipeline never
succeeds: it fails with the NameError of the missing
`FeatureExplanation` import. -/
theorem C8_explain_response_contents {n : ℕ} (arts : CoreArtifacts n)
    (record : Fin n → Option ℚ) :
    (∀ resp : ExplanationResponse, explain_xgb arts record = .ok resp →
      (serializeResponse resp).map Prod.fst = ["base_value", "explanations"] ∧
      (∀ p ∈ serializeResponse resp, ∀ s : String, p.2 ≠ JsonVal.str s) ∧
      resp.explanations.Sorted absGE) ∧
    (∀ (ex : Explainer n) (st : PreprocStats n), arts.explainer_xgb = some ex →
      arts.preprocessor = some st → arts.feature_order ≠ [] → n ≠ 0 →
      explain_xgb arts record
        = .error (.nameError "FeatureExplanation is not defined")) := by
  constructor
  · intro resp hok
    refine ⟨rfl, ?_, ?_⟩
    · intro p hp s
      rcases List.mem_cons.mp hp with h1 | h2
      · rw [h1]; intro hc; cases hc
      · rcases List.mem_cons.mp h2 with h3 | h4
        · rw [h3]; intro hc; cases hc
        · simp at h4
    · obtain ⟨ex, st, hex, hpre, hz, hshape⟩ := explain_xgb_ok_shape arts record resp hok
      rw [hshape]
      exact List.sorted_insertionSort absGE _
  · intro ex st hex hpre hfo hn
    have hvne : ((List.finRange n).map
        (shapleyValue ex.ensemble ex.background (transformVec st record))) ≠ [] := by
      intro hc
      have hlc := congrArg List.length hc
      rw [List.length_map, List.length_finRange] at hlc
      exact hn (by simpa using hlc)
    obtain ⟨a, as, ha⟩ := List.exists_cons_of_ne_nil hfo
    obtain ⟨b, bs, hb⟩ := List.exists_cons_of_ne_nil hvne
    have hzz : (arts.feature_order.zip ((List.finRange n).map
        (shapleyValue ex.ensemble ex.background (transformVec st record)))).isEmpty
          = false := by
      rw [ha, hb]
      rfl
    rw [explain_xgb, hex, hpre]
    dsimp only [preprocess_data]
    rw [if_neg (by rw [hzz]; exact Bool.false_ne_true)]

/-- Witness for the amended C8: the success half on the zero-feature
artifacts, the NameError half on the loaded two-feature artifacts. -/
theorem C8_explain_response_contents_witness :
    (explain_xgb e0Arts e0Record = .ok e0Resp ∧
      ((serializeResponse e0Resp).map Prod.fst = ["base_value", "explanations"] ∧
        (∀ p ∈ serializeResponse e0Resp, ∀ s : String, p.2 ≠ JsonVal.str s) ∧
        e0Resp.explanations.Sorted absGE)) ∧
    ((exArts.explainer_xgb = some exExplainer ∧ exArts.preprocessor = some exStats ∧
        exArts.feature_order ≠ [] ∧ (2 : ℕ) ≠ 0) ∧
      explain_xgb exArts exRecord
        = .error (.nameError "FeatureExplanation is not defined")) := by
  have hok : explain_xgb e0Arts e0Record = .ok e0Resp := by with_unfolding_all decide
  have hfo : exArts.feature_order ≠ [] := by decide
  exact ⟨⟨hok, (C8_explain_response_contents e0Arts e0Record).1 e0Resp hok⟩,
    ⟨⟨rfl, rfl, hfo, by decide⟩,
      (C8_explain_response_contents exArts exRecord).2 exExplainer exStats rfl rfl hfo
        (by decide)⟩⟩

/-- C3: the summary generator classifies a profile as high-risk exactly
when the sum of the contribution values is strictly positive,
equivalently when the final log-odds strictly exceed the base value;
otherwise it takes the low-risk branch. -/
theorem C3_risk_direction (b : ℚ) (exps : List FeatureExplanation) :
    (is_high_risk b exps = true ↔ 0 < (exps.map fun ex => ex.shap_value).sum) ∧
    (is_high_risk b exps = true ↔ final_log_odds b exps > b) := by
  constructor
  · exact is_high_risk_iff b exps
  · rw [is_high_risk, decide_eq_true_eq]

/-- C4: on a contribution list with strictly positive sum, the summary
generator takes the high-risk branch; the drivers it names are the first
up-to-3 strictly positive contributions (in list order), the mitigator
is a minimum-value element among the strictly negative contributions and
is omitted exactly when no negative contribution exists, and when no
positive contribution exists the fixed low-signal message is returned. -/
theorem C4_high_risk_policy (b : ℚ) (exps : List FeatureExplanation)
    (h : 0 < (exps.map fun ex => ex.shap_value).sum) :
    (exps.filter (fun ex => decide (ex.shap_value > 0)) = [] →
      generate_summary b exps =
        "The prediction is slightly above average, but no single strong risk factor was identified.") ∧
    (exps.filter (fun ex => decide (ex.shap_value > 0)) ≠ [] →
      generate_summary b exps =
        (let core := "This is a high-risk profile, primarily driven by: "
            ++ joinNames (((exps.filter fun ex => decide (ex.shap_value > 0)).take 3).map
                fun d => d.feature) ++ "."
         match minByShap (exps.filter fun ex => decide (ex.shap_value < 0)) with
         | some m => core ++ " While factors like " ++ m.feature
             ++ " were a positive, it was not enough to offset the primary risk factors."
         | none => core)) ∧
    ((exps.filter fun ex => decide (ex.shap_value > 0)).take 3).length ≤ 3 ∧
    (∀ d ∈ (exps.filter fun ex => decide (ex.shap_value > 0)).take 3, 0 < d.shap_value) ∧
    (minByShap (exps.filter fun ex => decide (ex.shap_value < 0)) = none ↔
      ∀ y ∈ exps, ¬ y.shap_value < 0) ∧
    (∀ m, minByShap (exps.filter fun ex => decide (ex.shap_value < 0)) = some m →
      m ∈ exps ∧ m.shap_value < 0 ∧
        ∀ y ∈ exps, y.shap_value < 0 → m.shap_value ≤ y.shap_value) := by
  have hh : is_high_risk b exps = true := (is_high_risk_iff b exps).mpr h
  refine ⟨generate_summary_high_empty b exps hh, generate_summary_high_nonempty b exps hh,
    ?_, ?_, ?_, ?_⟩
  · rw [List.length_take]
    exact min_le_left 3 _
  · intro d hd
    exact of_decide_eq_true (List.mem_filter.mp (List.mem_of_mem_take hd)).2
  · rw [minByShap_eq_none_iff, List.filter_eq_nil_iff]
    simp
  · intro m hm
    obtain ⟨hmem, hall⟩ := minByShap_spec hm
    obtain ⟨hin, hneg⟩ := List.mem_filter.mp hmem
    exact ⟨hin, of_decide_eq_true hneg,
      fun y hy hyneg => hall y (List.mem_filter.mpr ⟨hy, decide_eq_true hyneg⟩)⟩

/-- Witness for C4 on a concrete two-element contribution list with
positive total. -/
theorem C4_high_risk_policy_witness :
    (0 < (c4Exps.map fun ex => ex.shap_value).sum) ∧
    ((c4Exps.filter (fun ex => decide (ex.shap_value > 0)) = [] →
      generate_summary 0 c4Exps =
        "The prediction is slightly above average, but no single strong risk factor was identified.") ∧
    (c4Exps.filter (fun ex => decide (ex.shap_value > 0)) ≠ [] →
      generate_summary 0 c4Exps =
        (let core := "This is a high-risk profile, primarily driven by: "
            ++ joinNames (((c4Exps.filter fun ex => decide (ex.shap_value > 0)).take 3).map
                fun d => d.feature) ++ "."
         match minByShap (c4Exps.filter fun ex => decide (ex.shap_value < 0)) with
         | some m => core ++ " While factors like " ++ m.feature
             ++ " were a positive, it was not enough to offset the primary risk factors."
         | none => core)) ∧
    ((c4Exps.filter fun ex => decide (ex.shap_value > 0)).take 3).length ≤ 3 ∧
    (∀ d ∈ (c4Exps.filter fun ex => decide (ex.shap_value > 0)).take 3, 0 < d.shap_value) ∧
    (minByShap (c4Exps.filter fun ex => decide (ex.shap_value < 0)) = none ↔
      ∀ y ∈ c4Exps, ¬ y.shap_value < 0) ∧
    (∀ m, minByShap (c4Exps.filter fun ex => decide (ex.shap_value < 0)) = some m →
      m ∈ c4Exps ∧ m.shap_value < 0 ∧
        ∀ y ∈ c4Exps, y.shap_value < 0 → m.shap_value ≤ y.shap_value)) := by
  have h : 0 < (c4Exps.map fun ex => ex.shap_value).sum := by with_unfolding_all decide
  exact ⟨h, C4_high_risk_policy 0 c4Exps h⟩

/-- C5: the driver-list formatting used by both branches of the summary
generator renders one name as itself, two names as `A and B`, and three
or more names comma-separated with `, and ` before the final name; both
the high-risk and the low-risk narrative render their driver list
through this formatting. -/
theorem C5_list_formatting :
    (∀ a : String, joinNames [a] = a) ∧
    (∀ a b : String, joinNames [a, b] = a ++ " and " ++ b) ∧
    (∀ names : List String, 3 ≤ names.length →
      joinNames names = joinSep ", " names.dropLast ++ ", and " ++ names.getLastD "") ∧
    (∀ a b c : String, joinNames [a, b, c] = a ++ ", " ++ b ++ ", and " ++ c) ∧
    (∀ (b : ℚ) (exps : List FeatureExplanation), is_high_risk b exps = true →
      exps.filter (fun ex => decide (ex.shap_value > 0)) ≠ [] →
      generate_summary b exps =
        (let core := "This is a high-risk profile, primarily driven by: "
            ++ joinNames (((exps.filter fun ex => decide (ex.shap_value > 0)).take 3).map
                fun d => d.feature) ++ "."
         match minByShap (exps.filter fun ex => decide (ex.shap_value < 0)) with
         | some m => core ++ " While factors like " ++ m.feature
             ++ " were a positive, it was not enough to offset the primary risk factors."
         | none => core)) ∧
    (∀ (b : ℚ) (exps : List FeatureExplanation), is_high_risk b exps = false →
      exps.filter (fun ex => decide (ex.shap_value < 0)) ≠ [] →
      generate_summary b exps =
        (let core := "This is a low-risk profile, primarily due to positive factors like: "
            ++ joinNames (((exps.filter fun ex => decide (ex.shap_value < 0)).take 3).map
                fun d => d.feature) ++ "."
         match maxByShap (exps.filter fun ex => decide (ex.shap_value > 0)) with
         | some r => core ++ " A minor risk was noted (" ++ r.feature
             ++ "), but it was offset by the strong positive factors."
         | none => core)) := by
  refine ⟨fun a => rfl, fun a b => rfl, ?_, fun a b c => rfl,
    generate_summary_high_nonempty, generate_summary_low_nonempty⟩
  intro names h3
  unfold joinNames
  rw [if_neg (by omega), if_neg (by omega)]

/-- Witness for C5: the three-name case with its length hypothesis
discharged on a concrete list. -/
theorem C5_list_formatting_witness :
    (3 ≤ (["Alpha", "Beta", "Gamma"] : List String).length) ∧
    joinNames ["Alpha", "Beta", "Gamma"]
      = joinSep ", " (["Alpha", "Beta", "Gamma"] : List String).dropLast ++ ", and "
        ++ (["Alpha", "Beta", "Gamma"] : List String).getLastD "" :=
  ⟨by decide, C5_list_formatting.2.2.1 ["Alpha", "Beta", "Gamma"] (by decide)⟩

theorem match_suffix_ne_empty (core : String) (hcore : core ≠ "")
    (o : Option FeatureExplanation) (s1 s2 : String) :
    (match o with
     | some m => core ++ s1 ++ m.feature ++ s2
     | none => core) ≠ "" := by
  cases o with
  | none => exact hcore
  | some m =>
    exact str_append_ne_empty _ _ (str_append_ne_empty _ _ (str_append_ne_empty _ _ hcore))

/-- C6: the summary generator is total — on every finite base value and
contribution list (the empty list and all-zero lists included) it
returns a non-empty string; the fixed low-signal messages are the
fallbacks, never an error. -/
theorem C6_summary_total (b : ℚ) (exps : List FeatureExplanation) :
    generate_summary b exps ≠ "" := by
  cases hb : is_high_risk b exps with
  | true =>
    by_cases hp : exps.filter (fun ex => decide (ex.shap_value > 0)) = []
    · rw [generate_summary_high_empty b exps hb hp]
      decide
    · rw [generate_summary_high_nonempty b exps hb hp]
      exact match_suffix_ne_empty _
        (str_append_ne_empty _ _ (str_append_ne_empty _ _ (by decide))) _ _ _
  | false =>
    by_cases hneg : exps.filter (fun ex => decide (ex.shap_value < 0)) = []
    · rw [generate_summary_low_empty b exps hb hneg]
      decide
    · rw [generate_summary_low_nonempty b exps hb hneg]
      exact match_suffix_ne_empty _
        (str_append_ne_empty _ _ (str_append_ne_empty _ _ (by decide))) _ _ _
